import Mathlib

/-!
Verification development for the podcast-summarizer transcript pipeline
(src/claude.ts, src/index.ts, src/markdown.ts).  The middle revision of
claude.ts (the one defining callClaudeParallel, splitTextIntoChunks,
parseFormatResult, formatTranscript with chunking) is the embedded source;
line references in comments point into that revision.

JavaScript strings are modelled as List Char (one entry per UTF-16 code
unit; every character the code inspects is in the basic plane, so Char is
an adequate code-unit type).  Network effects are modelled by explicit
oracles giving the outcome of each fetch.
-/

/-- Model of JavaScript String.prototype.slice with non-negative arguments:
characters from index start (inclusive) to stop (exclusive), both clamped
to the string length, empty when start is not below stop. -/
def jsSlice (text : List Char) (start stop : Nat) : List Char :=
  (text.drop start).take (stop - start)

/-- Math.ceil(a / b) for positive integers a, b.  For the magnitudes used
here (below 2^53) the IEEE double division in the source rounds to a value
whose ceiling equals this integer ceiling. -/
def ceilDiv (a b : Nat) : Nat := (a + b - 1) / b

/-! ## Chunk splitting (claude.ts lines 252-266, 332-354) -/

def FORMAT_CHUNK_THRESHOLD : Nat := 12000

/-- The three sentence-terminal markers tested by findSentenceBoundary:
full-width period, ASCII period, newline (claude.ts line 260). -/
def isSentenceTerminator (c : Char) : Bool :=
  c == '。' || c == '.' || c == '\n'

/-- claude.ts lines 257-266: scan indices from targetPosition up to
min(text.length, targetPosition + 500) exclusive; on the first terminator
return the index one past it, otherwise return targetPosition. -/
def findSentenceBoundary (text : List Char) (targetPosition : Nat) : Nat :=
  match (List.range' targetPosition
      (min text.length (targetPosition + 500) - targetPosition)).find?
      (fun i => isSentenceTerminator (text.getD i ' ')) with
  | some i => i + 1
  | none => targetPosition

/-- The loop of splitTextIntoChunks (claude.ts lines 343-351), with the
remaining iteration count as first numeric argument: the final iteration
(count 1) ends at text.length, every earlier iteration ends at the
sentence boundary found from currentPos + chunkSize. -/
def splitChunksGo (text : List Char) (chunkSize : Nat) :
    Nat → Nat → List (List Char)
  | 0, _ => []
  | 1, currentPos => [jsSlice text currentPos text.length]
  | k + 2, currentPos =>
    let e := findSentenceBoundary text (currentPos + chunkSize)
    jsSlice text currentPos e :: splitChunksGo text chunkSize (k + 1) e

/-- claude.ts lines 332-354. -/
def splitTextIntoChunks (text : List Char) : List (List Char) :=
  if text.length ≤ FORMAT_CHUNK_THRESHOLD then [text]
  else
    splitChunksGo text
      (ceilDiv text.length (ceilDiv text.length FORMAT_CHUNK_THRESHOLD))
      (ceilDiv text.length FORMAT_CHUNK_THRESHOLD) 0

/-! ## JSON values and JSON.parse

parseFormatResult and the response handling of callClaude go through
JSON.parse and JavaScript property accesses, so both are embedded.
-/

/-- A parsed JSON value.  Numbers are kept as their source lexeme: no
claim depends on numeric value or on number re-formatting. -/
inductive Json where
  | null : Json
  | bool (b : Bool) : Json
  | num (lexeme : List Char) : Json
  | str (s : List Char) : Json
  | arr (elems : List Json) : Json
  | obj (members : List (List Char × Json)) : Json

/-- The four JSON whitespace characters. -/
def isJsonWs (c : Char) : Bool :=
  match c with
  | ' ' => true
  | '\t' => true
  | '\n' => true
  | '\r' => true
  | _ => false

def skipWs : List Char → List Char
  | [] => []
  | c :: rest => if isJsonWs c then skipWs rest else c :: rest

/-- Value of one hexadecimal digit, by code point range. -/
def hexDigitVal (c : Char) : Option Nat :=
  let n := c.toNat
  if 48 ≤ n ∧ n ≤ 57 then some (n - 48)
  else if 97 ≤ n ∧ n ≤ 102 then some (n - 87)
  else if 65 ≤ n ∧ n ≤ 70 then some (n - 55)
  else none

/-- The single-character JSON string escapes. -/
def escapeChar (c : Char) : Option Char :=
  match c with
  | '"' => some '"'
  | '\\' => some '\\'
  | '/' => some '/'
  | 'b' => some (Char.ofNat 8)
  | 'f' => some (Char.ofNat 12)
  | 'n' => some '\n'
  | 'r' => some '\r'
  | 't' => some '\t'
  | _ => none

/-- Body of a JSON string after the opening quote: returns the decoded
content and the input after the closing quote.  Unescaped control
characters are rejected as JSON.parse does.  A \u escape decodes to the
character with that code; an escape in the surrogate range has no Char
counterpart and falls back through Char.ofNat, a corner no claim
exercises.  The fuel argument strictly dominates the input length at
every call, so it is never exhausted. -/
def parseStringBody : Nat → List Char → Option (List Char × List Char)
  | 0, _ => none
  | _ + 1, [] => none
  | fuel + 1, c :: rest =>
    if c == '"' then some ([], rest)
    else if c == '\\' then
      match rest with
      | [] => none
      | e :: rest2 =>
        if e == 'u' then
          match rest2 with
          | h1 :: h2 :: h3 :: h4 :: rest3 =>
            match hexDigitVal h1, hexDigitVal h2, hexDigitVal h3, hexDigitVal h4 with
            | some a, some b, some c2, some d =>
              match parseStringBody fuel rest3 with
              | some (tail, r) =>
                some (Char.ofNat (((a * 16 + b) * 16 + c2) * 16 + d) :: tail, r)
              | none => none
            | _, _, _, _ => none
          | _ => none
        else
          match escapeChar e with
          | some ec =>
            match parseStringBody fuel rest2 with
            | some (tail, r) => some (ec :: tail, r)
            | none => none
          | none => none
    else if c.toNat < 32 then none
    else
      match parseStringBody fuel rest with
      | some (tail, r) => some (c :: tail, r)
      | none => none

/-- Longest digit prefix of the input, and the remainder. -/
def takeDigits : List Char → (List Char × List Char)
  | [] => ([], [])
  | c :: rest =>
    if c.isDigit then
      let (d, r) := takeDigits rest
      (c :: d, r)
    else ([], c :: rest)

/-- Optional fraction part of a JSON number. -/
def parseFracPart (s : List Char) : Option (List Char × List Char) :=
  match s with
  | c :: rest =>
    if c == '.' then
      match takeDigits rest with
      | ([], _) => none
      | (ds, r) => some (c :: ds, r)
    else some ([], s)
  | [] => some ([], [])

/-- Optional exponent part of a JSON number. -/
def parseExpPart (s : List Char) : Option (List Char × List Char) :=
  match s with
  | c :: rest =>
    if c == 'e' || c == 'E' then
      match rest with
      | d :: rest2 =>
        if d == '+' || d == '-' then
          match takeDigits rest2 with
          | ([], _) => none
          | (ds, r) => some (c :: d :: ds, r)
        else
          match takeDigits rest with
          | ([], _) => none
          | (ds, r) => some (c :: ds, r)
      | [] => none
    else some ([], s)
  | [] => some ([], [])

/-- A JSON number lexeme: optional minus, integer part without leading
zeros, optional fraction, optional exponent. -/
def parseNumberLexeme (s : List Char) : Option (List Char × List Char) :=
  let p : List Char × List Char :=
    match s with
    | c :: rest => if c == '-' then ([c], rest) else ([], s)
    | [] => ([], [])
  match p.2 with
  | [] => none
  | c :: rest =>
    if c == '0' then
      match parseFracPart rest with
      | none => none
      | some (fr, r1) =>
        match parseExpPart r1 with
        | none => none
        | some (ex, r2) => some (p.1 ++ c :: (fr ++ ex), r2)
    else if c.isDigit then
      let ds := takeDigits rest
      match parseFracPart ds.2 with
      | none => none
      | some (fr, r1) =>
        match parseExpPart r1 with
        | none => none
        | some (ex, r2) => some (p.1 ++ c :: (ds.1 ++ fr ++ ex), r2)
    else none

def expectLit (lit : List Char) (s : List Char) : Option (List Char) :=
  if lit.isPrefixOf s then some (s.drop lit.length) else none

/-- JS object literals keep the value of the last occurrence of a
duplicated key, so a later member overrides this earlier one.  Members
are only consulted through lookup, which takes the first match, hence the
earlier duplicate is simply dropped. -/
def addMember (key : List Char) (v : Json)
    (ms : List (List Char × Json)) : List (List Char × Json) :=
  if (ms.lookup key).isSome then ms else (key, v) :: ms

mutual

/-- A JSON value together with the unconsumed input.  Fuel bounds the
nesting of recursive calls; at most two calls happen per consumed input
character, so the initial fuel of parseJson is never exhausted. -/
def parseValueF : Nat → List Char → Option (Json × List Char)
  | 0, _ => none
  | fuel + 1, s =>
    match skipWs s with
    | [] => none
    | c :: rest =>
      if c == '\x7b' then
        match skipWs rest with
        | d :: r2 =>
          if d == '\x7d' then some (Json.obj [], r2)
          else
            match parseMembersF fuel (d :: r2) with
            | some (ms, r) => some (Json.obj ms, r)
            | none => none
        | [] => none
      else if c == '[' then
        match skipWs rest with
        | d :: r2 =>
          if d == ']' then some (Json.arr [], r2)
          else
            match parseItemsF fuel (d :: r2) with
            | some (xs, r) => some (Json.arr xs, r)
            | none => none
        | [] => none
      else if c == '"' then
        match parseStringBody (fuel + 1) rest with
        | some (body, r) => some (Json.str body, r)
        | none => none
      else if c == 't' then
        match expectLit ['r', 'u', 'e'] rest with
        | some r => some (Json.bool true, r)
        | none => none
      else if c == 'f' then
        match expectLit ['a', 'l', 's', 'e'] rest with
        | some r => some (Json.bool false, r)
        | none => none
      else if c == 'n' then
        match expectLit ['u', 'l', 'l'] rest with
        | some r => some (Json.null, r)
        | none => none
      else
        match parseNumberLexeme (c :: rest) with
        | some (lx, r) => some (Json.num lx, r)
        | none => none

/-- Comma-separated array items up to the closing bracket. -/
def parseItemsF : Nat → List Char → Option (List Json × List Char)
  | 0, _ => none
  | fuel + 1, s =>
    match parseValueF fuel s with
    | none => none
    | some (v, r) =>
      match skipWs r with
      | [] => none
      | d :: r2 =>
        if d == ',' then
          match parseItemsF fuel r2 with
          | some (xs, r3) => some (v :: xs, r3)
          | none => none
        else if d == ']' then some ([v], r2)
        else none

/-- Comma-separated object members up to the closing brace. -/
def parseMembersF : Nat → List Char →
    Option (List (List Char × Json) × List Char)
  | 0, _ => none
  | fuel + 1, s =>
    match skipWs s with
    | [] => none
    | c :: rest =>
      if c == '"' then
        match parseStringBody (fuel + 1) rest with
        | some (key, r1) =>
          match skipWs r1 with
          | [] => none
          | d :: r2 =>
            if d == ':' then
              match parseValueF fuel r2 with
              | some (v, r3) =>
                match skipWs r3 with
                | [] => none
                | d2 :: r4 =>
                  if d2 == ',' then
                    match parseMembersF fuel r4 with
                    | some (ms, r5) => some (addMember key v ms, r5)
                    | none => none
                  else if d2 == '\x7d' then some ([(key, v)], r4)
                  else none
              | none => none
            else none
        | none => none
      else none

end

/-- JSON.parse: one JSON text with nothing but whitespace around it;
none models the thrown SyntaxError. -/
def parseJson (s : List Char) : Option Json :=
  match parseValueF (4 * s.length + 8) s with
  | some (j, rest) => if skipWs rest = [] then some j else none
  | none => none

/-! ## parseFormatResult (claude.ts lines 308-319) -/

/-- The span matched by the regular expression /\x7b[\s\S]*\x7d/: from the
first opening brace to the last closing brace, provided the brace pair is
properly ordered; with a greedy any-character class the engine keeps the
leftmost start and backtracks to the last closing brace in the input. -/
def matchBraceSpan (s : List Char) : Option (List Char) :=
  match s.findIdx? (· == '\x7b'), (s.reverse.findIdx? (· == '\x7d')) with
  | some p, some k =>
    if p < s.length - 1 - k then some (jsSlice s p (s.length - 1 - k + 1))
    else none
  | _, _ => none

def sectionsKey : List Char := "sections".toList
def titleKey : List Char := "title".toList
def contentKey : List Char := "content".toList
def textKey : List Char := "text".toList

/-- The synthetic single-section object built by the catch branch of
parseFormatResult: title 「（整形エラー）」, content the raw model text. -/
def fallbackJson (result : List Char) : Json :=
  Json.obj [(sectionsKey, Json.arr [Json.obj
    [(titleKey, Json.str "（整形エラー）".toList),
     (contentKey, Json.str result)]])]

/-- claude.ts lines 308-319: extract the brace span and JSON.parse it;
any thrown error (no span, malformed JSON) is caught and replaced by the
fallback object.  A span that parses is returned as is: the sections key
is never checked. -/
def parseFormatResult (result : List Char) : Json :=
  match matchBraceSpan result with
  | none => fallbackJson result
  | some span =>
    match parseJson span with
    | some j => j
    | none => fallbackJson result

/-! ## JavaScript member access on parsed JSON values -/

/-- Outcome of a JS property read: a TypeError (reading from null or
undefined), the undefined value, or a proper value. -/
inductive JsAccess where
  | crash : JsAccess
  | undefinedVal : JsAccess
  | val (j : Json) : JsAccess

/-- v.name for the non-index property names used by the source
(content, text, sections, title).  Reading from null throws; strings,
numbers, booleans and arrays do not own these properties. -/
def jsMember (v : Json) (key : List Char) : JsAccess :=
  match v with
  | .null => .crash
  | .obj m =>
    match m.lookup key with
    | some x => .val x
    | none => .undefinedVal
  | _ => .undefinedVal

/-- v[0]: element access on arrays, the "0" property on objects, the
first character on strings, undefined on numbers and booleans, a
TypeError on null. -/
def jsIndexZero (v : Json) : JsAccess :=
  match v with
  | .null => .crash
  | .arr [] => .undefinedVal
  | .arr (x :: _) => .val x
  | .obj m =>
    match m.lookup ['0'] with
    | some x => .val x
    | none => .undefinedVal
  | .str [] => .undefinedVal
  | .str (c :: _) => .val (.str [c])
  | .num _ => .undefinedVal
  | .bool _ => .undefinedVal

/-! ## callClaude retry loop (claude.ts lines 176-221) -/

structure HttpResponse where
  code : Nat
  body : List Char
deriving DecidableEq

/-- Outcome of one UrlFetchApp.fetch call: an HTTP response (HTTP errors
are muted into responses) or a thrown transport failure. -/
inductive FetchResult where
  | response (r : HttpResponse) : FetchResult
  | fetchFailure (msg : List Char) : FetchResult
deriving DecidableEq

/-- The errors that can travel through the retry loop. -/
inductive JsError where
  | jsonParseError : JsError
  | typeError : JsError
  | apiError (code : Nat) (body : List Char) : JsError
  | apiErrorAt (requestNumber : Nat) (code : Nat) (body : List Char) : JsError
  | fetchFailed (msg : List Char) : JsError
  | allRetriesFailed : JsError
deriving DecidableEq

/-- Evaluation of JSON.parse(response.getContentText()).content[0].text on
a 200 body: either a thrown error or the produced value, where none is
the JS undefined (content[0] exists but owns no text property). -/
inductive ExtractOut where
  | thrown (e : JsError) : ExtractOut
  | value (v : Option Json) : ExtractOut

def extractClaudeText (body : List Char) : ExtractOut :=
  match parseJson body with
  | none => .thrown .jsonParseError
  | some data =>
    match jsMember data contentKey with
    | .crash => .thrown .typeError
    | .undefinedVal => .thrown .typeError
    | .val c =>
      match jsIndexZero c with
      | .crash => .thrown .typeError
      | .undefinedVal => .thrown .typeError
      | .val elt =>
        match jsMember elt textKey with
        | .crash => .thrown .typeError
        | .undefinedVal => .value none
        | .val t => .value (some t)

/-- One iteration body of the callClaude for-loop: what the try/catch
leaves behind.  The throw for a non-retryable client error (4xx other
than 429, line 200) happens inside the same try whose catch assigns
lastError, so it is recorded exactly like a retryable error. -/
inductive StepOut where
  | returned (v : Option Json) : StepOut
  | errored (e : JsError) : StepOut

def callClaudeStep (f : FetchResult) : StepOut :=
  match f with
  | .fetchFailure msg => .errored (.fetchFailed msg)
  | .response r =>
    if r.code = 200 then
      match extractClaudeText r.body with
      | .thrown e => .errored e
      | .value v => .returned v
    else if 400 ≤ r.code ∧ r.code < 500 ∧ r.code ≠ 429 then
      .errored (.apiError r.code r.body)
    else
      .errored (.apiError r.code r.body)

/-- Carry a loop result out one iteration: same outcome, one more
attempt counted. -/
def bumpAttempt (r : (Option Json ⊕ JsError) × Nat) :
    (Option Json ⊕ JsError) × Nat :=
  (r.1, r.2 + 1)

/-- claude.ts lines 188-218 with remaining attempts as fuel; the second
component counts fetch attempts actually made.  On exhaustion the last
error is raised (line 220), with the fixed message when no attempt ran. -/
def callClaudeLoop (oracle : Nat → FetchResult) :
    Nat → Nat → Option JsError → (Option Json ⊕ JsError) × Nat
  | 0, _, lastError => (.inr (lastError.getD .allRetriesFailed), 0)
  | fuel + 1, attempt, _ =>
    match callClaudeStep (oracle attempt) with
    | .returned v => (.inl v, 1)
    | .errored e => bumpAttempt (callClaudeLoop oracle fuel (attempt + 1) (some e))

/-- claude.ts lines 176-221: maxRetries = 3, attempts numbered from 1.
The oracle gives the fetch outcome of each attempt number.  inl is the
returned value of data.content[0].text, inr a raised error. -/
def callClaude (oracle : Nat → FetchResult) : (Option Json ⊕ JsError) × Nat :=
  callClaudeLoop oracle 3 1 none

/-! ## callClaudeParallel (claude.ts lines 226-250) -/

/-- The responses.map callback chain: the requests were dispatched by
fetchAll, which pairs response i with request i; the map body throws on
the first non-200 response (message carries the 1-based request number)
or on the first extraction error, in index order. -/
def callClaudeParallelGo :
    List HttpResponse → Nat → Except JsError (List (Option Json))
  | [], _ => .ok []
  | r :: rest, idx =>
    if r.code = 200 then
      match extractClaudeText r.body with
      | .thrown e => .error e
      | .value v =>
        match callClaudeParallelGo rest (idx + 1) with
        | .ok vs => .ok (v :: vs)
        | .error e => .error e
    else .error (.apiErrorAt idx r.code r.body)

def callClaudeParallel (responses : List HttpResponse) :
    Except JsError (List (Option Json)) :=
  callClaudeParallelGo responses 1

/-! ## Rendering and the formatting orchestrator (claude.ts 360-397) -/

mutual

/-- JS string conversion as used by template interpolation and by
Array.prototype.join on nested values. -/
def jsToString : Json → List Char
  | .null => "null".toList
  | .bool b => if b then "true".toList else "false".toList
  | .num lx => lx
  | .str s => s
  | .obj _ => "[object Object]".toList
  | .arr xs => List.intercalate [','] (jsToStringElems xs)

/-- Array.prototype.join stringifies elements, rendering null (and
undefined) as the empty string. -/
def jsToStringElems : List Json → List (List Char)
  | [] => []
  | j :: rest =>
    (match j with
      | .null => []
      | other => jsToString other) :: jsToStringElems rest

end

/-- What the template literal interpolates for an accessed member. -/
def templateValue : JsAccess → List Char
  | .crash => []
  | .undefinedVal => "undefined".toList
  | .val j => jsToString j

/-- One section line of fullText: ## title, blank line, content
(claude.ts lines 366-367, 390-391).  none models the TypeError thrown
when the section value is null. -/
def renderSection (s : Json) : Option (List Char) :=
  match jsMember s titleKey, jsMember s contentKey with
  | .crash, _ => none
  | _, .crash => none
  | t, c =>
    some ("## ".toList ++ templateValue t ++ "\n\n".toList ++ templateValue c)

def divider : List Char := "\n\n---\n\n".toList

/-- parsed.sections as consumed by formatTranscript: the subsequent .map
call throws unless the parsed value is an object whose sections member is
an array (missing member and non-array values give undefined.map or the
like). -/
def extractSections (j : Json) : Option (List Json) :=
  match j with
  | .obj m =>
    match m.lookup sectionsKey with
    | some (.arr xs) => some xs
    | _ => none
  | _ => none

structure FormattedTranscript where
  sections : List Json
  fullText : List Char

/-- claude.ts lines 360-397.  The oracle gives the text extracted from
the response to the chunk request with the given zero-based index (the
single-chunk branch issues exactly one request, index 0).  A none result
models a thrown error while consuming the parsed payloads; network-level
failures abort earlier and are out of scope of the claims on this
function. -/
def formatTranscript (rawText : List Char) (oracle : Nat → List Char) :
    Option FormattedTranscript :=
  if (splitTextIntoChunks rawText).length = 1 then
    match extractSections (parseFormatResult (oracle 0)) with
    | none => none
    | some secs =>
      match secs.mapM renderSection with
      | none => none
      | some rendered => some ⟨secs, List.intercalate divider rendered⟩
  else
    match ((List.range (splitTextIntoChunks rawText).length).map oracle).mapM
        (fun r => extractSections (parseFormatResult r)) with
    | none => none
    | some parsedSections =>
      match parsedSections.flatten.mapM renderSection with
      | none => none
      | some rendered =>
        some ⟨parsedSections.flatten, List.intercalate divider rendered⟩

/-! ## Translation identity (index.ts lines 37-51, markdown.ts line 62) -/

def jaLang : List Char := "ja".toList

/-- Modelled from the spec: translateToJapanese is imported by index.ts
but defined in the node revision of claude.ts, which is not among the
source files.  Spec section 4.6 fixes the identity case, a no-op issuing
no generation calls when the source language equals the target language
ja; the other branch chunks and translates and is kept as an
uninterpreted parameter here.  The second component counts generation
calls issued. -/
def translateToJapanese (nonJaBranch : List Char → List Char × Nat)
    (text : List Char) (sourceLanguage : List Char) : List Char × Nat :=
  if sourceLanguage = jaLang then (text, 0) else nonJaBranch text

structure TranslatedContent where
  summary400 : List Char
  summary2000 : List Char
  fullText : List Char

/-- index.ts lines 37-51, step 4 of processEpisode: only when
sourceLanguage differs from ja are the two summaries and the full text
translated (three translateToJapanese calls); otherwise translated stays
undefined.  The translation function is abstracted by tr; the count is
the number of translation calls issued. -/
def processEpisodeTranslation (tr : List Char → List Char)
    (sourceLanguage s400 s2000 full : List Char) :
    Option TranslatedContent × Nat :=
  if sourceLanguage ≠ jaLang then
    (some ⟨tr s400, tr s2000, tr full⟩, 3)
  else (none, 0)

/-- markdown.ts line 62 and the three body interpolations (lines 85, 91,
97): which summary-400, summary-2000 and transcript strings the episode
document body uses. -/
def markdownContentSelection (sourceLanguage : List Char)
    (translated : Option TranslatedContent)
    (s400 s2000 full : List Char) : List Char × List Char × List Char :=
  let needsTranslation : Bool :=
    (sourceLanguage != jaLang) && translated.isSome
  if needsTranslation then
    match translated with
    | some t => (t.summary400, t.summary2000, t.fullText)
    | none => (s400, s2000, full)
  else (s400, s2000, full)

/-! ## Concrete inputs used by witnesses, counterexamples and scenarios -/

/-- The concrete oracle for the C10 witness: attempt 1 answers 200 with a
non-JSON body, later attempts answer 500. -/
def badBodyOracle : Nat → FetchResult :=
  fun n => if n = 1 then .response ⟨200, "notjson".toList⟩
    else .response ⟨500, []⟩

/-- The body used in the C5 witness batch. -/
def okBodyW : List Char := "\x7b\"content\":[\x7b\"text\":\"a\"\x7d]\x7d".toList

/-- A section object as produced by parsing a well-formed model reply. -/
def sectionJson (t c : List Char) : Json :=
  Json.obj [(titleKey, Json.str t), (contentKey, Json.str c)]

/-- Number of positions of s at which pattern occurs as a substring. -/
def countOccurrences (pattern s : List Char) : Nat :=
  ((List.range (s.length + 1)).filter
    (fun i => pattern.isPrefixOf (s.drop i))).length

def threeDashes : List Char := "---".toList

/-- The 25000-character transcript of the C8 end-to-end scenario; it has
no sentence terminator, so every boundary search returns its target. -/
def scenarioText : List Char := List.replicate 25000 'あ'

/-- Chunk responses of the C8 scenario: each of the three chunk requests
is answered with a two-section JSON payload with chunk-specific titles. -/
def scenarioOracle : Nat → List Char
  | 0 => ("\x7b\"sections\":[\x7b\"title\":\"A1\",\"content\":\"a1\"\x7d," ++
      "\x7b\"title\":\"B1\",\"content\":\"b1\"\x7d]\x7d").toList
  | 1 => ("\x7b\"sections\":[\x7b\"title\":\"A2\",\"content\":\"a2\"\x7d," ++
      "\x7b\"title\":\"B2\",\"content\":\"b2\"\x7d]\x7d").toList
  | _ => ("\x7b\"sections\":[\x7b\"title\":\"A3\",\"content\":\"a3\"\x7d," ++
      "\x7b\"title\":\"B3\",\"content\":\"b3\"\x7d]\x7d").toList

/-- The six sections the C8 scenario must produce, in chunk order. -/
def scenarioSections : List Json :=
  [sectionJson "A1".toList "a1".toList, sectionJson "B1".toList "b1".toList,
   sectionJson "A2".toList "a2".toList, sectionJson "B2".toList "b2".toList,
   sectionJson "A3".toList "a3".toList, sectionJson "B3".toList "b3".toList]

/-- The fullText the C8 scenario must produce. -/
def scenarioFullText : List Char :=
  List.intercalate divider
    ["## A1\n\na1".toList, "## B1\n\nb1".toList, "## A2\n\na2".toList,
     "## B2\n\nb2".toList, "## A3\n\na3".toList, "## B3\n\nb3".toList]

/-- Single-section model reply used by the C8 witness. -/
def witnessResponse : List Char :=
  "\x7b\"sections\":[\x7b\"title\":\"T\",\"content\":\"c\"\x7d]\x7d".toList

/-- The adversarial 276001-character text of the C3 counterexample: a
full-width period sits at the very end of each 500-character boundary
search window (positions congruent to 12000 modulo 12001), and one more
at the final position 276000; every other character is a plain syllable.
Under chunk size 11501 (24 chunks) each boundary search overshoots its
target by the full 500, and the 23rd chunk ends exactly at the text end,
leaving the final chunk empty. -/
def c3text : List Char :=
  (List.range 276001).map
    (fun j => if j % 12001 = 12000 ∨ j = 276000 then '。' else 'あ')

/-! ## Helper lemmas on the boundary finder and the splitter -/

theorem findSentenceBoundary_ge (text : List Char) (t : Nat) :
    t ≤ findSentenceBoundary text t := by
  unfold findSentenceBoundary
  split
  next i h =>
    have hm := List.mem_of_find?_eq_some h
    have h1 := (List.mem_range'_1.mp hm).1
    omega
  next => exact le_refl t

theorem findSentenceBoundary_le_add (text : List Char) (t : Nat) :
    findSentenceBoundary text t ≤ t + 500 := by
  unfold findSentenceBoundary
  split
  next i h =>
    have hm := List.mem_of_find?_eq_some h
    have h2 := (List.mem_range'_1.mp hm).2
    omega
  next => omega

theorem findSentenceBoundary_le_length (text : List Char) (t : Nat)
    (ht : t ≤ text.length) : findSentenceBoundary text t ≤ text.length := by
  unfold findSentenceBoundary
  split
  next i h =>
    have hm := List.mem_of_find?_eq_some h
    have h2 := (List.mem_range'_1.mp hm).2
    omega
  next => omega

theorem find?_range'_first (f : Nat → Bool) (p : Nat) :
    ∀ (n a : Nat), a ≤ p → p < a + n → f p = true →
    (∀ j, a ≤ j → j < p → f j = false) →
    (List.range' a n).find? f = some p := by
  intro n
  induction n with
  | zero => intro a h1 h2 _ _; omega
  | succ m ih =>
    intro a h1 h2 h3 h4
    rw [List.range'_succ, List.find?_cons]
    by_cases hc : a = p
    · subst hc; simp [h3]
    · have hfa : f a = false := h4 a (le_refl a) (by omega)
      simp only [hfa]
      exact ih (a + 1) (by omega) (by omega) h3 (fun j hj1 hj2 => h4 j (by omega) hj2)

theorem findSentenceBoundary_found (text : List Char) (t p : Nat)
    (hp1 : t ≤ p) (hp2 : p < min text.length (t + 500))
    (hterm : isSentenceTerminator (text.getD p ' ') = true)
    (hbefore : ∀ j, t ≤ j → j < p →
      isSentenceTerminator (text.getD j ' ') = false) :
    findSentenceBoundary text t = p + 1 := by
  unfold findSentenceBoundary
  rw [find?_range'_first (fun q => isSentenceTerminator (text.getD q ' '))
    p (min text.length (t + 500) - t) t hp1 (by omega) hterm hbefore]

theorem jsSlice_append_drop (l : List Char) (p e : Nat) (hpe : p ≤ e) :
    jsSlice l p e ++ l.drop e = l.drop p := by
  unfold jsSlice
  have h1 : l.drop e = (l.drop p).drop (e - p) := by
    rw [List.drop_drop]
    congr 1
    omega
  rw [h1, List.take_append_drop]

theorem splitChunksGo_flatten (text : List Char) (cs : Nat) :
    ∀ k pos, 1 ≤ k → (splitChunksGo text cs k pos).flatten = text.drop pos := by
  intro k
  induction k using Nat.strong_induction_on with
  | _ k ih =>
    intro pos hk
    match k, hk with
    | 1, _ =>
      show (splitChunksGo text cs 1 pos).flatten = text.drop pos
      unfold splitChunksGo
      simp only [List.flatten_cons, List.flatten_nil, List.append_nil, jsSlice]
      exact List.take_of_length_le (by simp)
    | m + 2, _ =>
      show (splitChunksGo text cs (m + 2) pos).flatten = text.drop pos
      unfold splitChunksGo
      simp only [List.flatten_cons]
      rw [ih (m + 1) (by omega) _ (by omega)]
      exact jsSlice_append_drop _ _ _
        (le_trans (Nat.le_add_right pos cs) (findSentenceBoundary_ge text (pos + cs)))

theorem splitChunksGo_length (text : List Char) (cs : Nat) :
    ∀ k pos, (splitChunksGo text cs k pos).length = k := by
  intro k
  induction k using Nat.strong_induction_on with
  | _ k ih =>
    intro pos
    match k with
    | 0 => rfl
    | 1 => rfl
    | m + 2 =>
      show (splitChunksGo text cs (m + 2) pos).length = m + 2
      unfold splitChunksGo
      simp only [List.length_cons]
      rw [ih (m + 1) (by omega)]

/-! ## Claim theorems: chunk splitting -/

/-- C2: for every input text, concatenating the chunks returned by
splitTextIntoChunks in index order yields the input exactly (lossless
contiguous partition starting at 0 and ending at the end of the text). -/
theorem splitTextIntoChunks_lossless (text : List Char) :
    (splitTextIntoChunks text).flatten = text := by
  unfold splitTextIntoChunks
  by_cases h : text.length ≤ FORMAT_CHUNK_THRESHOLD
  · simp [h]
  · simp only [h, if_false]
    have h1 : 1 ≤ ceilDiv text.length FORMAT_CHUNK_THRESHOLD := by
      unfold ceilDiv FORMAT_CHUNK_THRESHOLD at *
      omega
    rw [splitChunksGo_flatten text _ _ 0 h1, List.drop_zero]

/-- C7: every text of length at most the 12000-character formatting
threshold is returned as a single chunk equal to the whole input. -/
theorem splitTextIntoChunks_short (text : List Char)
    (h : text.length ≤ FORMAT_CHUNK_THRESHOLD) :
    splitTextIntoChunks text = [text] := by
  unfold splitTextIntoChunks
  simp [h]

/-- Witness for C7 at the concrete three-character input abc. -/
theorem splitTextIntoChunks_short_witness :
    splitTextIntoChunks "abc".toList = ["abc".toList] :=
  splitTextIntoChunks_short "abc".toList (by decide)

/-- C6: for every target position within the text, findSentenceBoundary
never moves backwards, scans at most 500 characters ahead, returns the
index one past the first terminator (full-width period, ASCII period or
newline) in that window, and returns the target unchanged when the
window holds no terminator. -/
theorem findSentenceBoundary_spec (text : List Char) (t : Nat)
    (h : t ≤ text.length) :
    t ≤ findSentenceBoundary text t ∧
    findSentenceBoundary text t ≤ t + 500 ∧
    (∀ p, t ≤ p → p < min text.length (t + 500) →
      isSentenceTerminator (text.getD p ' ') = true →
      (∀ j, t ≤ j → j < p → isSentenceTerminator (text.getD j ' ') = false) →
      findSentenceBoundary text t = p + 1) ∧
    ((∀ j, t ≤ j → j < min text.length (t + 500) →
      isSentenceTerminator (text.getD j ' ') = false) →
      findSentenceBoundary text t = t) := by
  refine ⟨findSentenceBoundary_ge text t, findSentenceBoundary_le_add text t, ?_, ?_⟩
  · intro p hp1 hp2 hterm hbefore
    exact findSentenceBoundary_found text t p hp1 hp2 hterm hbefore
  · intro hnone
    unfold findSentenceBoundary
    rw [List.find?_eq_none.mpr ?_]
    intro x hx
    have hb := List.mem_range'_1.mp hx
    simp only [hnone x hb.1 (by omega), Bool.false_eq_true, not_false_eq_true]

/-- Witness for C6: the terminator-found case at a concrete input, the
ASCII period at index 2 of ab.cd. -/
theorem findSentenceBoundary_spec_witness :
    findSentenceBoundary "ab.cd".toList 0 = 3 :=
  (findSentenceBoundary_spec "ab.cd".toList 0 (by decide)).2.2.1 2
    (by decide) (by decide) (by decide)
    (fun j _ hj => by interval_cases j <;> decide)

/-! ## Claim theorems: parseFormatResult -/

/-- C4 counterexample: the claim also promises the single-section
fallback when the parsed JSON lacks the sections key, but on the input
consisting of a bare empty object the matched span parses successfully
and parseFormatResult returns that empty object unchanged, not the
fallback section wrapping the input. -/
theorem parseFormatResult_missing_sections_counterexample :
    parseFormatResult "\x7b\x7d".toList = Json.obj [] ∧
    parseFormatResult "\x7b\x7d".toList ≠ fallbackJson "\x7b\x7d".toList := by
  refine ⟨rfl, ?_⟩
  intro h
  rw [show parseFormatResult "\x7b\x7d".toList = Json.obj [] from rfl] at h
  rw [show fallbackJson "\x7b\x7d".toList = Json.obj [(sectionsKey, Json.arr
    [Json.obj [(titleKey, Json.str "（整形エラー）".toList),
      (contentKey, Json.str "\x7b\x7d".toList)]])] from rfl] at h
  injection h with h1
  exact List.cons_ne_nil _ _ h1.symm

/-- C4 amended: parseFormatResult returns the synthetic single-section
fallback (error title, content the raw input verbatim) exactly when no
brace span is found or the matched span is not valid JSON; a span that
parses is returned unvalidated, even without a sections key. -/
theorem parseFormatResult_fallback (raw : List Char)
    (h : matchBraceSpan raw = none ∨
      ∃ span, matchBraceSpan raw = some span ∧ parseJson span = none) :
    parseFormatResult raw = fallbackJson raw := by
  unfold parseFormatResult
  rcases h with h | ⟨span, h1, h2⟩
  · rw [h]
  · simp only [h1, h2]

/-- Witness for the amended C4 at the concrete spanless input hello. -/
theorem parseFormatResult_fallback_witness :
    parseFormatResult "hello".toList = fallbackJson "hello".toList :=
  parseFormatResult_fallback "hello".toList (Or.inl (by rfl))

/-! ## Claim theorems: the callClaude retry loop -/

theorem callClaudeLoop_step_err (oracle : Nat → FetchResult)
    (fuel attempt : Nat) (le : Option JsError) (e : JsError)
    (h : callClaudeStep (oracle attempt) = .errored e) :
    callClaudeLoop oracle (fuel + 1) attempt le =
      bumpAttempt (callClaudeLoop oracle fuel (attempt + 1) (some e)) := by
  conv_lhs => unfold callClaudeLoop
  rw [h]

theorem callClaudeLoop_pos (oracle : Nat → FetchResult)
    (fuel attempt : Nat) (le : Option JsError) (h : 1 ≤ fuel) :
    1 ≤ (callClaudeLoop oracle fuel attempt le).2 := by
  match fuel, h with
  | f + 1, _ =>
    unfold callClaudeLoop
    split
    · exact le_refl 1
    · simp only [bumpAttempt]
      omega

/-- C1 (evaluation at the failing input): with every attempt answering
HTTP 500 the call makes exactly 3 attempts and then raises the last 500
error, as the claim states; but with every attempt answering HTTP 400 the
call also makes 3 attempts and raises the 400 error only after them,
instead of failing with exactly 1 attempt: the throw for the client
error is caught by its own try's catch, so the documented no-retry path
is unreachable. -/
theorem callClaude_retry_ceiling_evaluation :
    callClaude (fun _ => .response ⟨500, "err".toList⟩)
      = (.inr (.apiError 500 "err".toList), 3) ∧
    callClaude (fun _ => .response ⟨400, "bad".toList⟩)
      = (.inr (.apiError 400 "bad".toList), 3) ∧
    (callClaude (fun _ => .response ⟨400, "bad".toList⟩)).2 ≠ 1 :=
  ⟨rfl, rfl, by decide⟩

/-- C10 counterexample: a 200 response whose body parses to JSON but
whose content[0] is an object without a text property raises nothing:
data.content[0].text evaluates to undefined and the call returns it
successfully on attempt 1, with no retry, contrary to the claim that
every 200 body lacking content[0].text is treated as a retryable
failure. -/
theorem callClaude_undefined_text_counterexample :
    callClaude (fun _ => .response
      ⟨200, "\x7b\"content\":[\x7b\x7d]\x7d".toList⟩) = (.inl none, 1) := rfl

/-- C10 amended: if attempt 1 receives a 200 response whose body
evaluation throws (body not valid JSON, or a TypeError while reading
content[0].text), the exception is caught and the attempt is consumed: at
least one retry happens, and when the remaining two attempts also fail
the call makes exactly 3 attempts and raises the last error.  A 200 body
whose content[0] is an object merely lacking the text property instead
returns undefined at once. -/
theorem callClaude_bad_body_retries (oracle : Nat → FetchResult)
    (b : List Char) (e : JsError)
    (h1 : oracle 1 = .response ⟨200, b⟩)
    (h2 : extractClaudeText b = .thrown e) :
    2 ≤ (callClaude oracle).2 ∧
    (∀ e2 e3, callClaudeStep (oracle 2) = .errored e2 →
      callClaudeStep (oracle 3) = .errored e3 →
      callClaude oracle = (.inr e3, 3)) := by
  have hstep : callClaudeStep (oracle 1) = .errored e := by
    rw [h1]
    unfold callClaudeStep
    simp [h2]
  have hload := callClaudeLoop_step_err oracle 2 1 none e hstep
  norm_num at hload
  constructor
  · show 2 ≤ (callClaudeLoop oracle 3 1 none).2
    rw [hload]
    have := callClaudeLoop_pos oracle 2 2 (some e) (by omega)
    simp only [bumpAttempt]
    omega
  · intro e2 e3 hs2 hs3
    show callClaudeLoop oracle 3 1 none = (.inr e3, 3)
    have h2load := callClaudeLoop_step_err oracle 1 2 (some e) e2 hs2
    norm_num at h2load
    have h3load := callClaudeLoop_step_err oracle 0 3 (some e2) e3 hs3
    norm_num at h3load
    rw [hload, h2load, h3load]
    rfl

/-- Witness for the amended C10: at the concrete oracle, the first bad
200 body consumes attempt 1 and the two 500 answers exhaust the loop,
which raises the last 500 error after 3 attempts. -/
theorem callClaude_bad_body_retries_witness :
    2 ≤ (callClaude badBodyOracle).2 ∧
    callClaude badBodyOracle = (.inr (.apiError 500 []), 3) :=
  ⟨(callClaude_bad_body_retries badBodyOracle "notjson".toList
      .jsonParseError rfl rfl).1,
   (callClaude_bad_body_retries badBodyOracle "notjson".toList
      .jsonParseError rfl rfl).2 (.apiError 500 []) (.apiError 500 []) rfl rfl⟩

/-! ## Claim theorems: callClaudeParallel -/

theorem callClaudeParallelGo_ok (rs : List HttpResponse) :
    ∀ idx, (∀ r ∈ rs, r.code = 200 ∧ ∃ v, extractClaudeText r.body = .value v) →
    ∃ l, callClaudeParallelGo rs idx = .ok l ∧ l.length = rs.length ∧
      ∀ i ri v, rs.get? i = some ri →
        extractClaudeText ri.body = .value v → l.get? i = some v := by
  induction rs with
  | nil =>
    intro idx _
    exact ⟨[], rfl, rfl, fun i ri v hri _ => by simp at hri⟩
  | cons r rest ih =>
    intro idx hall
    obtain ⟨hcode, v0, hv0⟩ := hall r (by simp)
    obtain ⟨l, hl, hlen, hidx⟩ := ih (idx + 1) (fun x hx => hall x (by simp [hx]))
    refine ⟨v0 :: l, ?_, by simp [hlen], ?_⟩
    · unfold callClaudeParallelGo
      rw [if_pos hcode, hv0, hl]
    · intro i ri v hri hv
      match i with
      | 0 =>
        simp only [List.get?_cons_zero, Option.some.injEq] at hri
        subst hri
        rw [hv0] at hv
        cases hv
        rfl
      | n + 1 =>
        simp only [List.get?_cons_succ] at hri
        exact hidx n ri v hri hv

theorem callClaudeParallelGo_err (rs : List HttpResponse) :
    ∀ idx k r0, rs.get? k = some r0 → r0.code ≠ 200 →
    (∀ j rj, j < k → rs.get? j = some rj →
      rj.code = 200 ∧ ∃ v, extractClaudeText rj.body = .value v) →
    callClaudeParallelGo rs idx = .error (.apiErrorAt (idx + k) r0.code r0.body) := by
  induction rs with
  | nil =>
    intro idx k r0 hk
    simp at hk
  | cons r rest ih =>
    intro idx k r0 hk hcode hbefore
    match k with
    | 0 =>
      simp only [List.get?_cons_zero, Option.some.injEq] at hk
      subst hk
      unfold callClaudeParallelGo
      rw [if_neg hcode]
      rfl
    | n + 1 =>
      simp only [List.get?_cons_succ] at hk
      obtain ⟨h200, v0, hv0⟩ := hbefore 0 r (by omega) (by simp)
      unfold callClaudeParallelGo
      rw [if_pos h200, hv0,
        ih (idx + 1) n r0 hk hcode
          (fun j rj hj hg => hbefore (j + 1) rj (by omega) (by simpa using hg))]
      have : idx + 1 + n = idx + (n + 1) := by omega
      rw [this]

/-- C5: when every response is a 200 whose body extraction does not
throw, callClaudeParallel returns exactly one extracted value per
request, in input order; and when some response is not a 200 while all
earlier responses are well-formed 200s, the whole batch call fails with
the error for that first non-success, carrying its 1-based request
number, and no partial result list is produced. -/
theorem callClaudeParallel_spec (rs : List HttpResponse) :
    ((∀ r ∈ rs, r.code = 200 ∧ ∃ v, extractClaudeText r.body = .value v) →
      ∃ l, callClaudeParallel rs = .ok l ∧ l.length = rs.length ∧
        ∀ i ri v, rs.get? i = some ri →
          extractClaudeText ri.body = .value v → l.get? i = some v) ∧
    (∀ k r0, rs.get? k = some r0 → r0.code ≠ 200 →
      (∀ j rj, j < k → rs.get? j = some rj →
        rj.code = 200 ∧ ∃ v, extractClaudeText rj.body = .value v) →
      callClaudeParallel rs = .error (.apiErrorAt (k + 1) r0.code r0.body)) := by
  constructor
  · exact fun h => callClaudeParallelGo_ok rs 1 h
  · intro k r0 hk hcode hbefore
    have := callClaudeParallelGo_err rs 1 k r0 hk hcode hbefore
    rwa [show 1 + k = k + 1 by omega] at this

/-- Witness for C5: a concrete batch whose first response is a
well-formed 200 and whose second is a 404 fails as a whole with the error
for request number 2. -/
theorem callClaudeParallel_spec_witness :
    callClaudeParallel [⟨200, okBodyW⟩, ⟨404, []⟩]
      = .error (.apiErrorAt 2 404 []) :=
  (callClaudeParallel_spec [⟨200, okBodyW⟩, ⟨404, []⟩]).2 1 ⟨404, []⟩ rfl
    (by decide)
    (fun j rj hj hg => by
      match j, hj with
      | 0, _ =>
        rw [show (([⟨200, okBodyW⟩, ⟨404, []⟩] : List HttpResponse).get? 0)
            = some ⟨200, okBodyW⟩ from rfl] at hg
        cases hg
        exact ⟨rfl, some (Json.str ['a']), rfl⟩)

/-! ## Claim theorems: formatTranscript and translation -/

theorem split_25000_length (raw : List Char) (h : raw.length = 25000) :
    (splitTextIntoChunks raw).length = 3 := by
  unfold splitTextIntoChunks
  rw [h]
  rw [if_neg (by norm_num [FORMAT_CHUNK_THRESHOLD])]
  rw [splitChunksGo_length]
  norm_num [ceilDiv, FORMAT_CHUNK_THRESHOLD]

/-- C8: whenever formatTranscript returns, its fullText is exactly the
returned sections rendered as a heading-plus-content block each and
joined with the fixed divider, in chunk order; every 25000-character
transcript splits into exactly 3 chunks at the 12000-character
threshold; and in the concrete scenario where each of the three chunk
responses parses to 2 sections, the result carries the 6 sections in
chunk order and its fullText contains the three-dash divider exactly 5
times. -/
theorem formatTranscript_join_spec :
    (∀ rawText oracle ft, formatTranscript rawText oracle = some ft →
      ∃ rendered, ft.sections.mapM renderSection = some rendered ∧
        ft.fullText = List.intercalate divider rendered) ∧
    (∀ rawText : List Char, rawText.length = 25000 →
      (splitTextIntoChunks rawText).length = 3) ∧
    formatTranscript scenarioText scenarioOracle =
      some ⟨scenarioSections, scenarioFullText⟩ ∧
    countOccurrences threeDashes scenarioFullText = 5 ∧
    countOccurrences divider scenarioFullText = 5 := by
  refine ⟨?_, split_25000_length, ?_, by decide, by decide⟩
  · intro raw oracle ft h
    unfold formatTranscript at h
    split at h
    · split at h
      next => simp at h
      next secs hE =>
        split at h
        next => simp at h
        next rendered hR =>
          cases h
          exact ⟨rendered, hR, rfl⟩
    · split at h
      next => simp at h
      next parsedSections hE =>
        split at h
        next => simp at h
        next rendered hR =>
          cases h
          exact ⟨rendered, hR, rfl⟩
  · have h3 := split_25000_length scenarioText
      (by unfold scenarioText; exact List.length_replicate 25000 'あ')
    unfold formatTranscript
    rw [h3]
    norm_num
    rfl

/-- Witness for C8 at a concrete short transcript: one chunk, one
section, fullText equal to the single rendered block. -/
theorem formatTranscript_join_spec_witness :
    ∃ rendered,
      (([sectionJson "T".toList "c".toList] : List Json).mapM renderSection
        = some rendered) ∧
      ("## T\n\nc".toList : List Char) = List.intercalate divider rendered :=
  formatTranscript_join_spec.1 "hi".toList (fun _ => witnessResponse)
    ⟨[sectionJson "T".toList "c".toList], "## T\n\nc".toList⟩ rfl

/-- C9: with source language ja (the output language), translation is the
identity and issues zero generation calls; in the pipeline the
translation step produces no TranslatedContent and issues zero
translation calls, and the episode document body uses the untranslated
summaries and full text, whatever the translated argument is. -/
theorem translation_identity_ja (nonJa : List Char → List Char × Nat)
    (tr : List Char → List Char) (text s400 s2000 full : List Char)
    (tc : TranslatedContent) :
    translateToJapanese nonJa text jaLang = (text, 0) ∧
    processEpisodeTranslation tr jaLang s400 s2000 full = (none, 0) ∧
    markdownContentSelection jaLang none s400 s2000 full =
      (s400, s2000, full) ∧
    markdownContentSelection jaLang (some tc) s400 s2000 full =
      (s400, s2000, full) :=
  ⟨rfl, rfl, rfl, rfl⟩

/-! ## Claim theorems: no empty chunks (amended) and its counterexample -/

theorem splitChunksGo_nonempty (text : List Char) (cs : Nat) (hcs : 1 ≤ cs) :
    ∀ k pos, 1 ≤ k → pos + (k - 1) * (cs + 500) < text.length →
    ∀ c ∈ splitChunksGo text cs k pos, c ≠ [] := by
  intro k
  induction k using Nat.strong_induction_on with
  | _ k ih =>
    intro pos hk hbound c hc
    match k, hk with
    | 1, _ =>
      unfold splitChunksGo at hc
      simp only [List.mem_singleton] at hc
      subst hc
      have hpos : pos < text.length := by
        simp only [Nat.sub_self, Nat.zero_mul] at hbound
        omega
      have hlen : 0 < (jsSlice text pos text.length).length := by
        unfold jsSlice
        rw [List.length_take, List.length_drop]
        omega
      exact fun hnil => by rw [hnil] at hlen; simp at hlen
    | m + 2, _ =>
      have hX : (m + 2 - 1) * (cs + 500) = m * (cs + 500) + (cs + 500) := by
        have h1 : m + 2 - 1 = m + 1 := by omega
        rw [h1]
        ring
      have he1 : pos + cs ≤ findSentenceBoundary text (pos + cs) :=
        findSentenceBoundary_ge text (pos + cs)
      have he2 : findSentenceBoundary text (pos + cs) ≤ pos + cs + 500 :=
        findSentenceBoundary_le_add text (pos + cs)
      unfold splitChunksGo at hc
      simp only [List.mem_cons] at hc
      rcases hc with hc | hc
      · subst hc
        have hpos : pos < text.length := by
          rw [hX] at hbound
          omega
        have hlen : 0 < (jsSlice text pos
            (findSentenceBoundary text (pos + cs))).length := by
          unfold jsSlice
          rw [List.length_take, List.length_drop]
          omega
        exact fun hnil => by rw [hnil] at hlen; simp at hlen
      · refine ih (m + 1) (by omega) _ (by omega) ?_ c hc
        have hX2 : (m + 1 - 1) * (cs + 500) = m * (cs + 500) := by
          norm_num
        rw [hX2]
        rw [hX] at hbound
        omega

theorem split_bound_arith (L : Nat) (h1 : FORMAT_CHUNK_THRESHOLD < L)
    (h2 : L ≤ 276000) :
    (ceilDiv L FORMAT_CHUNK_THRESHOLD - 1) *
      (ceilDiv L (ceilDiv L FORMAT_CHUNK_THRESHOLD) + 500) < L := by
  unfold ceilDiv FORMAT_CHUNK_THRESHOLD at *
  set n := (L + 12000 - 1) / 12000 with hn
  have hn2 : 2 ≤ n := by omega
  have hn23 : n ≤ 23 := by omega
  interval_cases n <;> omega

/-- C3 amended: for every non-empty input of length at most 276000 every
chunk returned by splitTextIntoChunks is non-empty.  The bound is tight:
at length 276001 accumulated boundary-search overshoot can move the
cursor to the end of the text early and later chunks come out empty (see
the counterexample). -/
theorem splitTextIntoChunks_nonempty (text : List Char)
    (hne : text ≠ []) (hlen : text.length ≤ 276000) :
    ∀ c ∈ splitTextIntoChunks text, c ≠ [] := by
  intro c hc
  unfold splitTextIntoChunks at hc
  by_cases h : text.length ≤ FORMAT_CHUNK_THRESHOLD
  · rw [if_pos h] at hc
    simp only [List.mem_singleton] at hc
    subst hc
    exact hne
  · rw [if_neg h] at hc
    have hthr : FORMAT_CHUNK_THRESHOLD < text.length := by omega
    have hn1 : 1 ≤ ceilDiv text.length FORMAT_CHUNK_THRESHOLD := by
      unfold ceilDiv FORMAT_CHUNK_THRESHOLD at *
      omega
    have hcs : 1 ≤ ceilDiv text.length (ceilDiv text.length FORMAT_CHUNK_THRESHOLD) := by
      unfold FORMAT_CHUNK_THRESHOLD at h
      unfold ceilDiv FORMAT_CHUNK_THRESHOLD
      rw [Nat.one_le_div_iff (by omega)]
      omega
    refine splitChunksGo_nonempty text _ hcs _ 0 hn1 ?_ c hc
    have := split_bound_arith text.length hthr hlen
    omega

/-- Witness for the amended C3 at the concrete one-character input a:
its single chunk, the whole text, is non-empty. -/
theorem splitTextIntoChunks_nonempty_witness :
    splitTextIntoChunks "a".toList = ["a".toList] ∧ "a".toList ≠ [] :=
  ⟨rfl, splitTextIntoChunks_nonempty "a".toList (by decide) (by decide)
    "a".toList (by decide)⟩

theorem c3text_length : c3text.length = 276001 := by
  unfold c3text
  simp

theorem c3text_getD (j : Nat) (hj : j < 276001) (d : Char) :
    c3text.getD j d =
      if j % 12001 = 12000 ∨ j = 276000 then '。' else 'あ' := by
  unfold c3text
  rw [List.getD_eq_getElem?_getD, List.getElem?_map, List.getElem?_range hj]
  rfl

theorem c3term_true (j : Nat) (hj : j < 276001)
    (h : j % 12001 = 12000 ∨ j = 276000) :
    isSentenceTerminator (c3text.getD j ' ') = true := by
  rw [c3text_getD j hj, if_pos h]
  decide

theorem c3term_false (j : Nat) (hj : j < 276001)
    (h : ¬(j % 12001 = 12000 ∨ j = 276000)) :
    isSentenceTerminator (c3text.getD j ' ') = false := by
  rw [c3text_getD j hj, if_neg h]
  decide

attribute [irreducible] c3text

theorem c3_fsb_step (i : Nat) (hi : i ≤ 21) :
    findSentenceBoundary c3text (i * 12001 + 11501) = (i + 1) * 12001 := by
  have h := findSentenceBoundary_found c3text (i * 12001 + 11501)
    (i * 12001 + 12000) (by omega)
    (by rw [c3text_length]; omega)
    (c3term_true (i * 12001 + 12000) (by omega) (by omega))
    (fun j hj1 hj2 => c3term_false j (by omega) (by omega))
  rw [h]
  ring

theorem c3_fsb_last : findSentenceBoundary c3text 275523 = 276001 := by
  have h := findSentenceBoundary_found c3text 275523 276000 (by omega)
    (by rw [c3text_length]; omega)
    (c3term_true 276000 (by omega) (Or.inr rfl))
    (fun j hj1 hj2 => c3term_false j (by omega) (by omega))
  rw [h]

theorem c3_empty_mem : ∀ d, d ≤ 22 →
    [] ∈ splitChunksGo c3text 11501 (2 + d) ((22 - d) * 12001) := by
  intro d
  induction d with
  | zero =>
    intro _
    show [] ∈ splitChunksGo c3text 11501 2 (22 * 12001)
    have he : findSentenceBoundary c3text (22 * 12001 + 11501) = 276001 := by
      rw [show (22 * 12001 + 11501 : Nat) = 275523 by norm_num]
      exact c3_fsb_last
    unfold splitChunksGo
    simp only [he]
    unfold splitChunksGo
    have hnil : jsSlice c3text 276001 c3text.length = [] := by
      unfold jsSlice
      rw [c3text_length]
      simp
    rw [hnil]
    simp
  | succ m ih =>
    intro hm1
    have harg : 22 - (m + 1) = 21 - m := by omega
    rw [harg]
    have h2 : 2 + (m + 1) = (m + 1) + 2 := by omega
    rw [h2]
    have hstep := c3_fsb_step (21 - m) (by omega)
    unfold splitChunksGo
    simp only [hstep]
    have h3 : m + 1 + 1 = 2 + m := by omega
    have h4 : 21 - m + 1 = 22 - m := by omega
    rw [h3, h4]
    exact List.mem_cons_of_mem _ (ih (by omega))

/-- C3 counterexample: the adversarial 276001-character text is
non-empty, yet splitTextIntoChunks returns an empty chunk for it (the
final chunk, the cursor having already reached the end of the text), so
the claim that every chunk of a non-empty input is non-empty is false as
stated. -/
theorem splitTextIntoChunks_empty_chunk_counterexample :
    c3text ≠ [] ∧ ¬ (∀ c ∈ splitTextIntoChunks c3text, 0 < c.length) := by
  constructor
  · intro h
    have hl := congrArg List.length h
    rw [c3text_length] at hl
    simp at hl
  · intro hall
    have hmem : [] ∈ splitTextIntoChunks c3text := by
      unfold splitTextIntoChunks
      rw [c3text_length]
      rw [if_neg (by norm_num [FORMAT_CHUNK_THRESHOLD])]
      rw [show ceilDiv 276001 FORMAT_CHUNK_THRESHOLD = 24 by
        norm_num [ceilDiv, FORMAT_CHUNK_THRESHOLD]]
      rw [show ceilDiv 276001 24 = 11501 by norm_num [ceilDiv]]
      have h0 := c3_empty_mem 22 (le_refl 22)
      simpa using h0
    have := hall [] hmem
    simp at this
